import Mathlib

/-!
Verification of `Placemat_Generator.py` (wedding-nametag-generator).

Shallow embedding conventions:
* Python strings are modelled as `List Char`; `str.strip`, `str.lower` and
  `str.startswith` are modelled by `pyStrip`, `pyLower`, `pyStartswith`
  (exact for the ASCII inputs the claims use).
* Machine floats are idealised as exact rationals/reals; `math.hypot`-based
  distance tests are stated both in squared integer form (as the code's
  decidable acceptance test) and via `Real.sqrt`.
* Python's global `random` module is modelled by an explicit stream
  `g : Nat → Proposal` of draws, consumed one record per placement attempt.
* PIL drawing is modelled by an operation list on a fixed-size canvas record.
-/

namespace Placemat

/-! ## Colour palette (module constants, lines 42-48) -/

def PINK : String := "#ffc0cb"
def GOLD : String := "#ffd700"
def FAINT_PINK : String := "#ffcdfe"
def FAINT_GOLD : String := "#ffe493"
def FAINT_GREEN : String := "#cce8cf"
def BLACK : String := "#ffffff"
def PASTELS : List String := [FAINT_PINK, FAINT_GOLD, FAINT_GREEN]

/-! ## `parse_input` (lines 54-67)

The Python function iterates the lines of a file (each line keeps its
trailing newline except possibly the last), strips each line, skips blank
lines, updates `current_table` on lines whose lowercasing starts with
"table", and otherwise appends `(current_table, line)`. -/

/-- Model of Python `str.isspace` on the characters `str.strip` removes
(ASCII whitespace; the inputs in the claims are ASCII). -/
def pyIsSpace (c : Char) : Bool :=
  c == ' ' || c == '\t' || c == '\n' || c == '\r' || c == '\x0b' || c == '\x0c'

/-- Model of Python `str.strip()`. -/
def pyStrip (s : List Char) : List Char :=
  ((s.dropWhile pyIsSpace).reverse.dropWhile pyIsSpace).reverse

/-- Model of Python `str.lower()` (ASCII case mapping). -/
def pyLower (s : List Char) : List Char :=
  s.map Char.toLower

/-- Model of Python `s.startswith(p)`. -/
def pyStartswith (s p : List Char) : Bool :=
  p.isPrefixOf s

/-- Splitting a file's contents into the lines Python's file iteration
yields: each line keeps its trailing `'\n'`; a final fragment without a
newline is yielded as-is. -/
def fileLinesAux : List Char → List Char → List (List Char)
  | acc, [] => if acc.isEmpty then [] else [acc.reverse]
  | acc, c :: cs =>
    if c = '\n' then (acc.reverse ++ ['\n']) :: fileLinesAux [] cs
    else fileLinesAux (c :: acc) cs

def fileLines (s : List Char) : List (List Char) :=
  fileLinesAux [] s

/-- The loop body of `parse_input`: `current_table` starts as `""` and is
updated by table-marker lines; every other non-blank line is emitted with
the current table label.  Blank lines are skipped (`continue`) and do NOT
reset `current_table`. -/
def parseLines : List Char → List (List Char) → List (List Char × List Char)
  | _, [] => []
  | tbl, raw :: rest =>
    let line := pyStrip raw
    if line.isEmpty then parseLines tbl rest
    else if pyStartswith (pyLower line) ("table".toList) then parseLines line rest
    else (tbl, line) :: parseLines tbl rest

/-- Model of `parse_input` on a whole file content string. -/
def parse_input (content : List Char) : List (List Char × List Char) :=
  parseLines [] (fileLines content)

/-! ## Decoration placement (`compose_tag`, lines 205-229)

Each iteration of the inner `while retries:` loop draws one random record:
radius, centre, and (used only on acceptance) pastel colour and motif kind.
The process-wide `random` module is modelled as a stream `g : Nat → Proposal`
together with a cursor counting how many records have been consumed. -/

inductive Motif where
  | flower
  | heart
  | wine
  | diamond
deriving DecidableEq, Repr

/-- The random draws of one placement attempt. -/
structure Proposal where
  cx : Nat
  cy : Nat
  r : Nat
  colour : String
  motif : Motif
deriving DecidableEq, Repr

/-- The code's acceptance test against one already-placed record
`math.hypot(cx - x, cy - y) >= r + pr`, stated in the equivalent squared
form (both sides are nonnegative). -/
def overlapOK (q p : Proposal) : Bool :=
  ((p.r : Int) + q.r) ^ 2 ≤ ((p.cx : Int) - q.cx) ^ 2 + ((p.cy : Int) - q.cy) ^ 2

/-- Model of `all(math.hypot(cx - x, cy - y) >= r + pr for x, y, pr in placed)`. -/
def accepts (placed : List Proposal) (p : Proposal) : Bool :=
  placed.all (fun q => overlapOK q p)

/-- Loaded font or the built-in fallback `ImageFont.load_default()`. -/
inductive PILFont where
  | truetype (path : String) (size : Nat)
  | default
deriving DecidableEq, Repr

/-- Drawing operations recorded on the canvas.  `motifStamp` stands for a
`draw_with_tilt` call: the motif drawn on an isolated transparent square,
rotated, and pasted centred at `(cx, cy)`. -/
inductive DrawOp where
  | pieslice (x0 y0 x1 y1 : Int) (a0 a1 : Int) (fill : String)
  | ellipse (x0 y0 x1 y1 : Int) (fill : String)
  | motifStamp (kind : Motif) (cx cy : Int) (size : Int) (colour : String)
  | rect (x0 y0 x1 y1 : Int) (outline : String) (width : Nat)
  | text (x : ℚ) (y : Int) (content : List Char) (fill : String) (font : PILFont)
deriving DecidableEq, Repr

/-- Model of the `draw_with_tilt` call made for an accepted placement in motif mode;
the wine-glass motif is passed `r*2` as its size, the others `r`
(lines 218-226). -/
def motifOp (p : Proposal) : DrawOp :=
  match p.motif with
  | .wine => .motifStamp .wine p.cx p.cy (2 * p.r) p.colour
  | k => .motifStamp k p.cx p.cy p.r p.colour

/-- Drawing done for one accepted placement: a filled circle when
`random_bubbles`, then a motif when `flowers` (lines 215-226). -/
def decorOps (rb fl : Bool) (p : Proposal) : List DrawOp :=
  (if rb then
    [DrawOp.ellipse ((p.cx : Int) - p.r) ((p.cy : Int) - p.r)
      ((p.cx : Int) + p.r) ((p.cy : Int) + p.r) p.colour]
  else []) ++
  (if fl then [motifOp p] else [])

/-- State of the placement loop: accepted records (the code's `placed`
list), drawing operations emitted so far, and the random-stream cursor. -/
structure PlaceState where
  accepted : List Proposal
  ops : List DrawOp
  i : Nat
deriving Repr

/-- The inner `while retries:` loop for one shape: consume proposals until
one is accepted or the fuel (the 50-retry budget) runs out; returns the
accepted proposal (if any) and the new stream cursor. -/
def tryOne (placed : List Proposal) (g : Nat → Proposal) :
    Nat → Nat → Option Proposal × Nat
  | i, 0 => (none, i)
  | i, fuel + 1 =>
    let p := g i
    if accepts placed p then (some p, i + 1) else tryOne placed g (i + 1) fuel

/-- Model of the outer `for _ in range(80):` loop (run with `n = 80`): each shape
gets a fresh budget of 50 attempts; on success the proposal is appended to
`placed` and its drawing operations are emitted; on exhaustion the shape is
skipped and the loop moves on. -/
def placeShapes (rb fl : Bool) (g : Nat → Proposal) : Nat → PlaceState → PlaceState
  | 0, st => st
  | n + 1, st =>
    match tryOne st.accepted g st.i 50 with
    | (some p, i2) =>
      placeShapes rb fl g n ⟨st.accepted ++ [p], st.ops ++ decorOps rb fl p, i2⟩
    | (none, i2) => placeShapes rb fl g n ⟨st.accepted, st.ops, i2⟩

/-! ## Background, border and text of `compose_tag` (lines 193-254) -/

/-- The two large quarter-disc colour washes (lines 197-199):
`R = min(W, H) // 2`, a pink slice on a box reaching the bottom-left edge
and a gold slice on the box centred at the top-right corner `(W, 0)`
(PIL's y axis points down). -/
def washSlices (W H : Nat) : List DrawOp :=
  let R : Int := ((min W H / 2 : Nat) : Int)
  [DrawOp.pieslice (-R) ((H : Int) - 2 * R) R ((H : Int) + R) 90 180 PINK,
   DrawOp.pieslice ((W : Int) - R) (-R) ((W : Int) + R) R (-90) 0 GOLD]

/-- The two small quarter-disc accents (lines 201-203):
`r_s = min(W, H) // 4`, boxes centred at `(0, 0)` (top-left corner) and at
`(W, 0)` (top-right corner), both filled `FAINT_PINK`. -/
def accentSlices (W H : Nat) : List DrawOp :=
  let rs : Int := ((min W H / 4 : Nat) : Int)
  [DrawOp.pieslice (-rs) (-rs) rs rs 180 270 FAINT_PINK,
   DrawOp.pieslice ((W : Int) - rs) (-rs) ((W : Int) + rs) rs 270 360 FAINT_PINK]

/-- Centre of a pieslice's bounding box (the anchor of the quarter disc). -/
def sliceCenter : DrawOp → ℚ × ℚ
  | .pieslice x0 y0 x1 y1 _ _ _ => (((x0 : ℚ) + x1) / 2, ((y0 : ℚ) + y1) / 2)
  | _ => (0, 0)

/-- Fill colour of an operation. -/
def opFill : DrawOp → String
  | .pieslice _ _ _ _ _ _ f => f
  | .ellipse _ _ _ _ f => f
  | .motifStamp _ _ _ _ c => c
  | .rect _ _ _ _ o _ => o
  | .text _ _ _ f _ => f

/-- Half the width of a pieslice's bounding box. -/
def sliceRadiusX : DrawOp → ℚ
  | .pieslice x0 _ x1 _ _ _ _ => ((x1 : ℚ) - x0) / 2
  | _ => 0

/-- The non-overlap property the claims state: Euclidean distance between
centres is at least the sum of the radii. -/
def nonOverlap (p q : Proposal) : Prop :=
  (p.r : ℝ) + q.r ≤ Real.sqrt (((p.cx : ℝ) - q.cx) ^ 2 + ((p.cy : ℝ) - q.cy) ^ 2)

/-- An operation either is not a text operation or uses the default font. -/
def textFontDefault : DrawOp → Prop
  | .text _ _ _ _ f => f = PILFont.default
  | _ => True

/-- The border rectangle (lines 231-232). -/
def borderOp (W H : Nat) : DrawOp :=
  DrawOp.rect 0 0 ((W : Int) - 1) ((H : Int) - 1) BLACK (max 2 (min W H / 25))

/-- Model of `fs = font_size or int(H * 0.25)` (line 234): Python's `or` takes the
default whenever `font_size` is falsy — `None` or `0`.  `int(H * 0.25)` is
exactly `H / 4` (0.25 is a power of two, so the float product is exact). -/
def resolveFontSize (font_size : Option Nat) (H : Nat) : Nat :=
  match font_size with
  | some v => if v ≠ 0 then v else H / 4
  | none => H / 4

/-- Model of `int(fs * 0.7)` (line 237), idealised to exact arithmetic.  (The float
product can land one below `7 * fs / 10` for some sizes; no claim depends
on the exact value.) -/
def secondarySize (fs : Nat) : Nat := fs * 7 / 10

/-- Model of the `try/except OSError` around the two `ImageFont.truetype` calls
(lines 235-241): `tt` models the loader, `none` meaning `OSError`.  A
failure of either call makes BOTH labels fall back to the default font. -/
def pickFonts (tt : String → Nat → Option Unit) (path : String) (fs : Nat) :
    PILFont × PILFont :=
  match tt path fs with
  | none => (PILFont.default, PILFont.default)
  | some _ =>
    match tt path (secondarySize fs) with
    | none => (PILFont.default, PILFont.default)
    | some _ => (PILFont.truetype path fs, PILFont.truetype path (secondarySize fs))

/-- Model of `int(H * 0.05)` idealised to exact arithmetic. -/
def int5pct (H : Nat) : Nat := H * 5 / 100

/-- Model of `int(H * 0.02)` idealised to exact arithmetic. -/
def int2pct (H : Nat) : Nat := H * 2 / 100

/-- The text block (lines 243-252).  `measure` models `font.getbbox`
reduced to (width, height); `name_y` uses Python's floor division `//`
(`Int.fdiv`), and the x coordinates use true division (exact rationals). -/
def textOps (measure : PILFont → List Char → Nat × Nat)
    (font small_font : PILFont) (name table_label : List Char) (W H : Nat) :
    List DrawOp :=
  let nameTW := (measure font name).1
  let nameTH := (measure font name).2
  let tableTW := if table_label.isEmpty then 0 else (measure small_font table_label).1
  let tableTH := if table_label.isEmpty then 0 else (measure small_font table_label).2
  let totalHeight : Int := (nameTH : Int) + tableTH + int5pct H
  let nameY : Int := Int.fdiv ((H : Int) - totalHeight) 2
  let tableY : Int := nameY + nameTH + int2pct H
  [DrawOp.text (((W : ℚ) - nameTW) / 2) nameY name "black" font] ++
  (if table_label.isEmpty then []
   else [DrawOp.text (((W : ℚ) - tableTW) / 2) tableY table_label "black" small_font])

/-- A finished canvas: dimensions fixed at `Image.new("RGB", size, "white")`
and never changed by the draw calls, plus the recorded operations. -/
structure PILImage where
  width : Nat
  height : Nat
  ops : List DrawOp
deriving Repr

/-- Model of `compose_tag` (lines 183-254).  Always returns a canvas of exactly the
requested `size`; the decoration loop runs only when a decoration flag is
set.  Every code path is total: budget exhaustion skips a shape, and font
failure substitutes the default font. -/
def compose_tag (tt : String → Nat → Option Unit)
    (measure : PILFont → List Char → Nat × Nat)
    (name : List Char) (font_path : String) (size : Nat × Nat)
    (font_size : Option Nat) (random_bubbles flowers : Bool)
    (table_label : List Char) (g : Nat → Proposal) : PILImage :=
  let W := size.1
  let H := size.2
  let deco :=
    if random_bubbles || flowers then
      (placeShapes random_bubbles flowers g 80 ⟨[], [], 0⟩).ops
    else []
  let fs := resolveFontSize font_size H
  let fonts := pickFonts tt font_path fs
  { width := W
    height := H
    ops := washSlices W H ++ accentSlices W H ++ deco ++ [borderOp W H] ++
      textOps measure fonts.1 fonts.2 name table_label W H }

/-! ## `build_pdf` (lines 261-304)

reportlab constants: `inch = 72`; `mm = 72 / 25.4`; `A4 = (210*mm, 297*mm)`;
`letter = (8.5*inch, 11*inch)`.  Floats are idealised as exact rationals. -/

def inchPts : ℚ := 72

def A4dims : ℚ × ℚ := (75600 / 127, 106920 / 127)

def letterDims : ℚ × ℚ := (612, 792)

/-- Model of `if page_size_name.lower() == "a4": ... else: ...` (lines 271-274). -/
def pageDims (name : String) : ℚ × ℚ :=
  if pyLower name.toList = "a4".toList then A4dims else letterDims

/-- Model of `row_gap = col_gap = 0.1 * inch` (line 282). -/
def rowGap : ℚ := 72 / 10

/-- Model of `cell_w = (PAGE_W - 2*margin) / cols` (line 277). -/
def cellWidth (pageW margin : ℚ) (cols : Nat) : ℚ := (pageW - 2 * margin) / cols

/-- Model of `cell_h = cell_w * (tag_h_px / tag_w_px)` (lines 279-280). -/
def cellHeight (pageW margin : ℚ) (cols tagW tagH : Nat) : ℚ :=
  cellWidth pageW margin cols * ((tagH : ℚ) / tagW)

/-- Model of `int((PAGE_H - 2*margin + row_gap) // (cell_h + row_gap))` (line 283):
float floor division, so the floor of the exact quotient. -/
def rowsFloor (pageW pageH margin : ℚ) (cols tagW tagH : Nat) : Int :=
  Int.floor ((pageH - 2 * margin + rowGap) / (cellHeight pageW margin cols tagW tagH + rowGap))

/-- Lines 271-285: the rows-per-page computation of `build_pdf`, including
the `if rows == 0: rows = 1` adjustment — which fires ONLY when the floor
is exactly zero. -/
def buildPdfRows (page_size_name : String) (margin_inch : ℚ)
    (cols tagW tagH : Nat) : Int :=
  if rowsFloor (pageDims page_size_name).1 (pageDims page_size_name).2
      (margin_inch * inchPts) cols tagW tagH = 0 then 1
  else rowsFloor (pageDims page_size_name).1 (pageDims page_size_name).2
    (margin_inch * inchPts) cols tagW tagH

/-! ### Slot assignment (lines 287-297) -/

/-- Model of `total_per_page = cols * rows` (line 287). -/
def total_per_page (cols rows : Nat) : Nat := cols * rows

/-- Model of `page_idx = idx // total_per_page` (line 291). -/
def pageOf (spp idx : Nat) : Nat := idx / spp

/-- Model of `local_idx = idx % total_per_page` (line 292). -/
def localOf (spp idx : Nat) : Nat := idx % spp

/-- Model of `col = local_idx % cols` (line 293). -/
def colOf (spp cols idx : Nat) : Nat := localOf spp idx % cols

/-- Model of `row = local_idx // cols` (line 294). -/
def rowOf (spp cols idx : Nat) : Nat := localOf spp idx / cols

/-- Row-major position of a slot within its page. -/
def rowMajor (spp cols idx : Nat) : Nat :=
  rowOf spp cols idx * cols + colOf spp cols idx

/-! ### Page boundaries (lines 301-304) -/

/-- Model of `if (idx + 1) % total_per_page == 0 and idx + 1 < len(paths)` —
the condition under which `c.showPage()` is called. -/
def showPageCount (N spp : Nat) : Nat :=
  ((Finset.range N).filter (fun idx => (idx + 1) % spp = 0 ∧ idx + 1 < N)).card

/-- Pages in the saved document: every `showPage` call ends one page, and
`c.save()` always emits the page in progress. -/
def pagesEmitted (N spp : Nat) : Nat := showPageCount N spp + 1

end Placemat

namespace Placemat

/-! ## Theorems -/

/-- C5 counterexample: on the scenario input, `parse_input` does NOT pair
Carol Lee with the empty group label — blank lines are skipped by
`continue` and never reset `current_table`, so the claimed output list is
not what the code produces. -/
theorem parse_input_scenario_claim_false :
    parse_input ("Table 1\nAlice Smith\nBob Jones\n\nCarol Lee".toList) ≠
      [("Table 1".toList, "Alice Smith".toList),
       ("Table 1".toList, "Bob Jones".toList),
       (([] : List Char), "Carol Lee".toList)] := by decide

/-- C5 (amended): on the input
`"Table 1\nAlice Smith\nBob Jones\n\nCarol Lee"`, `parse_input` returns
exactly `[("Table 1","Alice Smith"), ("Table 1","Bob Jones"),
("Table 1","Carol Lee")]` — the table label set by a marker persists
across blank lines, so Carol Lee is also paired with "Table 1". -/
theorem parse_input_scenario :
    parse_input ("Table 1\nAlice Smith\nBob Jones\n\nCarol Lee".toList) =
      [("Table 1".toList, "Alice Smith".toList),
       ("Table 1".toList, "Bob Jones".toList),
       ("Table 1".toList, "Carol Lee".toList)] := by decide

/-- C2: for `cols ≥ 1` and `rows ≥ 1` with `spp = cols * rows`, image `i`
is assigned page `i / spp`, column `(i % spp) % cols`, row
`(i % spp) / cols`; the page number and the row-major slot determine `i`
(so every image occupies exactly one slot on exactly one page), the
row-major slot is within the page's quota, pages are monotone in input
order, and within one page consecutive images occupy strictly increasing
row-major slots. -/
theorem slot_assignment_correct (cols rows i : Nat)
    (hc : 1 ≤ cols) (hr : 1 ≤ rows) :
    pageOf (total_per_page cols rows) i = i / (cols * rows) ∧
    colOf (total_per_page cols rows) cols i = (i % (cols * rows)) % cols ∧
    rowOf (total_per_page cols rows) cols i = (i % (cols * rows)) / cols ∧
    pageOf (total_per_page cols rows) i * (cols * rows) +
      rowMajor (total_per_page cols rows) cols i = i ∧
    rowMajor (total_per_page cols rows) cols i < cols * rows ∧
    pageOf (total_per_page cols rows) i ≤ pageOf (total_per_page cols rows) (i + 1) ∧
    (pageOf (total_per_page cols rows) i = pageOf (total_per_page cols rows) (i + 1) →
      rowMajor (total_per_page cols rows) cols i <
        rowMajor (total_per_page cols rows) cols (i + 1)) := by
  have hspp : 0 < cols * rows := Nat.mul_pos hc hr
  have hrm : ∀ j, rowMajor (total_per_page cols rows) cols j = j % (cols * rows) := by
    intro j
    unfold rowMajor rowOf colOf localOf total_per_page
    rw [Nat.mul_comm (j % (cols * rows) / cols) cols]
    exact Nat.div_add_mod (j % (cols * rows)) cols
  refine ⟨rfl, rfl, rfl, ?_, ?_, ?_, ?_⟩
  · rw [hrm i]
    unfold pageOf total_per_page
    rw [Nat.mul_comm]
    exact Nat.div_add_mod i (cols * rows)
  · rw [hrm i]
    exact Nat.mod_lt i hspp
  · exact Nat.div_le_div_right (Nat.le_succ i)
  · intro hpq
    rw [hrm i, hrm (i + 1)]
    unfold pageOf total_per_page at hpq
    have h1 := Nat.div_add_mod i (cols * rows)
    have h2 := Nat.div_add_mod (i + 1) (cols * rows)
    rw [← hpq] at h2
    generalize cols * rows * (i / (cols * rows)) = k at h1 h2
    omega

/-- C2 witness: the slot-assignment properties at `cols = 2`, `rows = 2`,
`i = 5`. -/
theorem slot_assignment_correct_witness :
    (1 ≤ 2 ∧ 1 ≤ 2) ∧
    (pageOf (total_per_page 2 2) 5 = 5 / (2 * 2) ∧
     colOf (total_per_page 2 2) 2 5 = (5 % (2 * 2)) % 2 ∧
     rowOf (total_per_page 2 2) 2 5 = (5 % (2 * 2)) / 2 ∧
     pageOf (total_per_page 2 2) 5 * (2 * 2) + rowMajor (total_per_page 2 2) 2 5 = 5 ∧
     rowMajor (total_per_page 2 2) 2 5 < 2 * 2 ∧
     pageOf (total_per_page 2 2) 5 ≤ pageOf (total_per_page 2 2) (5 + 1) ∧
     (pageOf (total_per_page 2 2) 5 = pageOf (total_per_page 2 2) (5 + 1) →
       rowMajor (total_per_page 2 2) 2 5 < rowMajor (total_per_page 2 2) 2 (5 + 1))) :=
  ⟨⟨by decide, by decide⟩, slot_assignment_correct 2 2 5 (by decide) (by decide)⟩

/-- The number of `showPage` calls is the number of multiples of `spp`
among `1, …, N-1`. -/
theorem showPageCount_eq (N spp : Nat) :
    showPageCount N spp = (N - 1) / spp := by
  unfold showPageCount
  have hfilter :
      (Finset.range N).filter (fun idx => (idx + 1) % spp = 0 ∧ idx + 1 < N) =
        (Finset.range (N - 1)).filter (fun idx => spp ∣ idx + 1) := by
    ext j
    simp only [Finset.mem_filter, Finset.mem_range, Nat.dvd_iff_mod_eq_zero]
    omega
  rw [hfilter]
  exact Nat.card_multiples (N - 1) spp

/-- C3: for `N ≥ 1` images and `cols, rows ≥ 1`, `build_pdf` emits exactly
`ceil(N / (cols*rows))` pages: one page per filled quota (a `showPage`
boundary fires exactly when the quota is filled and more images remain)
plus the final, possibly partial, page emitted by `save`. -/
theorem pages_emitted_eq_ceil (N cols rows : Nat)
    (hN : 1 ≤ N) (hc : 1 ≤ cols) (hr : 1 ≤ rows) :
    pagesEmitted N (total_per_page cols rows) =
      (N + total_per_page cols rows - 1) / total_per_page cols rows := by
  have hspp : 0 < cols * rows := Nat.mul_pos hc hr
  unfold pagesEmitted total_per_page
  rw [showPageCount_eq N (cols * rows)]
  have hsplit : N + cols * rows - 1 = (N - 1) + cols * rows := by omega
  rw [hsplit, Nat.add_div_right _ hspp]

/-- C3 witness: 3 images at 2 columns × 2 rows fit on a single page. -/
theorem pages_emitted_eq_ceil_witness :
    (1 ≤ 3 ∧ 1 ≤ 2 ∧ 1 ≤ 2) ∧
    pagesEmitted 3 (total_per_page 2 2) = (3 + total_per_page 2 2 - 1) / total_per_page 2 2 :=
  ⟨⟨by decide, by decide, by decide⟩,
    pages_emitted_eq_ceil 3 2 2 (by decide) (by decide) (by decide)⟩

/-- The page-size branch picks A4 for `"a4"`. -/
theorem pageDims_a4 : pageDims "a4" = A4dims := by
  unfold pageDims
  rw [if_pos (by decide)]

/-- On A4 with a 5.9-inch margin, 100 columns and 1000×500 tags, the
available height is negative while `cell_h + row_gap` is positive, so the
float floor division yields `-1`. -/
theorem rowsFloor_example_neg :
    rowsFloor A4dims.1 A4dims.2 ((59 / 10) * inchPts) 100 1000 500 = -1 := by
  unfold rowsFloor cellHeight cellWidth A4dims rowGap inchPts
  rw [Int.floor_eq_iff]
  norm_num

/-- C4 counterexample: rows-per-page is NOT always ≥ 1.  On A4 with a
5.9-inch margin, 100 columns and 1000×500 tags the computed floor is `-1`;
the code's `if rows == 0: rows = 1` only catches an exact zero, so the
negative value survives and `build_pdf` proceeds with `rows = -1 < 1`. -/
theorem buildPdfRows_can_be_negative :
    buildPdfRows "a4" (59 / 10) 100 1000 500 = -1 ∧
    ¬ (1 : Int) ≤ buildPdfRows "a4" (59 / 10) 100 1000 500 := by
  have h : buildPdfRows "a4" (59 / 10) 100 1000 500 = -1 := by
    unfold buildPdfRows
    rw [pageDims_a4, rowsFloor_example_neg]
    norm_num
  exact ⟨h, by omega⟩

/-- C4 (amended): `build_pdf` computes rows-per-page as
`floor((page_height - 2*margin + row_gap) / (cell_height + row_gap))` with
`cell_height = ((page_width - 2*margin)/cols) * (tag_height/tag_width)`,
and replaces the result by 1 only when it is exactly 0.  Hence the result
is ≥ 1 in every case except when the computed floor is negative (possible
when the available height is negative while `cell_height + row_gap` is
positive), in which case the negative floor is returned unchanged. -/
theorem buildPdfRows_ge_one_or_neg_floor (page_size_name : String)
    (margin_inch : ℚ) (cols tagW tagH : Nat) :
    1 ≤ buildPdfRows page_size_name margin_inch cols tagW tagH ∨
      (rowsFloor (pageDims page_size_name).1 (pageDims page_size_name).2
          (margin_inch * inchPts) cols tagW tagH < 0 ∧
        buildPdfRows page_size_name margin_inch cols tagW tagH =
          rowsFloor (pageDims page_size_name).1 (pageDims page_size_name).2
            (margin_inch * inchPts) cols tagW tagH) := by
  unfold buildPdfRows
  split
  · left
    omega
  · omega

/-- C6 counterexample: on a 1000×500 canvas the two accent pieslices are
anchored at `(0, 0)` and `(1000, 0)` — the top-left and top-RIGHT corners
(PIL's y axis points down) — and no accent is anchored at the bottom-right
corner `(1000, 500)` as the claim states. -/
theorem accent_corners_claim_false :
    (accentSlices 1000 500).map sliceCenter = [((0 : ℚ), (0 : ℚ)), ((1000 : ℚ), (0 : ℚ))] ∧
    ∀ op ∈ accentSlices 1000 500, sliceCenter op ≠ ((1000 : ℚ), (500 : ℚ)) := by
  have hc : (accentSlices 1000 500).map sliceCenter =
      [((0 : ℚ), (0 : ℚ)), ((1000 : ℚ), (0 : ℚ))] := by
    simp only [accentSlices, List.map_cons, List.map_nil, sliceCenter,
      List.cons.injEq, Prod.mk.injEq, and_true]
    norm_num
  refine ⟨hc, ?_⟩
  intro op hop
  have hmem : sliceCenter op ∈ (accentSlices 1000 500).map sliceCenter :=
    List.mem_map_of_mem _ hop
  rw [hc] at hmem
  simp only [List.mem_cons, List.not_mem_nil, or_false] at hmem
  rcases hmem with h | h <;> rw [h] <;> intro hcontra
  · have := congrArg Prod.fst hcontra
    norm_num at this
  · have := congrArg Prod.snd hcontra
    norm_num at this

/-- C6 (amended): for every canvas size the two large washes are filled
PINK and GOLD, the pink wash's box is horizontally centred on the left
edge reaching below centre (bottom-left anchor) and the gold wash's box is
centred exactly on the top-right corner `(W, 0)`; the two smaller accents
(radius `min(W,H) // 4`) are anchored at the top-left corner `(0, 0)` and
the top-RIGHT corner `(W, 0)` — not the bottom-right — and both use
`FAINT_PINK`, a third colour distinct from both wash colours. -/
theorem accent_slices_spec (W H : Nat) :
    (accentSlices W H).map sliceCenter = [((0 : ℚ), 0), ((W : ℚ), 0)] ∧
    (accentSlices W H).map sliceRadiusX =
      [((min W H / 4 : Nat) : ℚ), ((min W H / 4 : Nat) : ℚ)] ∧
    (accentSlices W H).map opFill = [FAINT_PINK, FAINT_PINK] ∧
    FAINT_PINK ≠ PINK ∧ FAINT_PINK ≠ GOLD ∧
    (washSlices W H).map opFill = [PINK, GOLD] ∧
    (washSlices W H).map sliceCenter =
      [((0 : ℚ), (H : ℚ) - ((min W H / 2 : Nat) : ℚ) / 2), ((W : ℚ), 0)] := by
  refine ⟨?_, ?_, ?_, by decide, by decide, ?_, ?_⟩
  · simp only [accentSlices, List.map_cons, List.map_nil, sliceCenter,
      List.cons.injEq, Prod.mk.injEq, and_true]
    refine ⟨⟨?_, ?_⟩, ?_, ?_⟩ <;> (push_cast; ring)
  · simp only [accentSlices, List.map_cons, List.map_nil, sliceRadiusX,
      List.cons.injEq, and_true]
    constructor <;> (push_cast; ring_nf; norm_cast)
  · simp only [accentSlices, List.map_cons, List.map_nil, opFill]
  · simp only [washSlices, List.map_cons, List.map_nil, opFill]
  · simp only [washSlices, List.map_cons, List.map_nil, sliceCenter,
      List.cons.injEq, Prod.mk.injEq, and_true]
    refine ⟨⟨?_, ?_⟩, ?_, ?_⟩
    · push_cast
      ring
    · push_cast
      ring_nf
      norm_cast
    · push_cast
      ring
    · push_cast
      ring

/-- A passed acceptance test against one placed record gives the
real-distance non-overlap property, in both orientations. -/
theorem overlapOK_nonOverlap {q p : Proposal} (h : overlapOK q p = true) :
    nonOverlap q p ∧ nonOverlap p q := by
  simp only [overlapOK, decide_eq_true_eq] at h
  have hcast : ((p.r : ℝ) + q.r) ^ 2 ≤
      ((p.cx : ℝ) - q.cx) ^ 2 + ((p.cy : ℝ) - q.cy) ^ 2 := by
    exact_mod_cast h
  constructor
  · unfold nonOverlap
    rw [Real.le_sqrt (by positivity) (by positivity)]
    nlinarith [hcast]
  · unfold nonOverlap
    rw [Real.le_sqrt (by positivity) (by positivity)]
    nlinarith [hcast]

/-- The code's `all(...)` acceptance test holds against every placed
record. -/
theorem accepts_forall {placed : List Proposal} {p : Proposal}
    (h : accepts placed p = true) : ∀ q ∈ placed, overlapOK q p = true := by
  simpa [accepts, List.all_eq_true] using h

/-- A proposal returned by the retry loop passed the acceptance test. -/
theorem tryOne_some_accepts (placed : List Proposal) (g : Nat → Proposal) :
    ∀ (fuel i : Nat) (p : Proposal) (j : Nat),
      tryOne placed g i fuel = (some p, j) → accepts placed p = true := by
  intro fuel
  induction fuel with
  | zero =>
    intro i p j h
    simp [tryOne] at h
  | succ fuel ih =>
    intro i p j h
    simp only [tryOne] at h
    split at h
    · rename_i hacc
      injection h with h1 h2
      injection h1 with h1
      subst h1
      exact hacc
    · exact ih _ _ _ h

/-- C1: pairwise non-overlap of the accepted placements is an invariant of
the placement loop — starting from any `placed` list that is pairwise
non-overlapping (so in particular from the empty list `compose_tag` starts
with, and from any intermediate state, covering every acceptance step and
the state at return), the accepted list after any number of loop
iterations is pairwise non-overlapping in the Euclidean-distance sense:
centre distance at least the sum of the radii. -/
theorem compose_tag_placements_no_overlap (rb fl : Bool) (g : Nat → Proposal)
    (n : Nat) (st : PlaceState) (h : st.accepted.Pairwise nonOverlap) :
    ((placeShapes rb fl g n st).accepted).Pairwise nonOverlap := by
  induction n generalizing st with
  | zero => simpa [placeShapes] using h
  | succ n ih =>
    rw [placeShapes]
    rcases htry : tryOne st.accepted g st.i 50 with ⟨o, i2⟩
    rcases o with _ | p
    · exact ih _ h
    · apply ih
      show (st.accepted ++ [p]).Pairwise nonOverlap
      rw [List.pairwise_append]
      refine ⟨h, List.pairwise_singleton _ _, ?_⟩
      intro a ha b hb
      rw [List.mem_singleton] at hb
      rw [hb]
      have hacc := tryOne_some_accepts st.accepted g 50 st.i p i2 htry
      exact (overlapOK_nonOverlap (accepts_forall hacc a ha)).1

/-- C1 witness: the invariant instantiated at a concrete degenerate stream
(every proposal at the same centre, so at most one is ever accepted),
starting from the empty placed list `compose_tag` uses. -/
theorem compose_tag_placements_no_overlap_witness :
    (([] : List Proposal).Pairwise nonOverlap) ∧
    ((placeShapes true false (fun _ => ⟨100, 100, 5, "#ffcdfe", Motif.flower⟩)
        80 ⟨[], [], 0⟩).accepted).Pairwise nonOverlap :=
  ⟨List.Pairwise.nil,
    compose_tag_placements_no_overlap true false
      (fun _ => ⟨100, 100, 5, "#ffcdfe", Motif.flower⟩) 80 ⟨[], [], 0⟩
      List.Pairwise.nil⟩

/-- The retry loop consumes at most `fuel` random records. -/
theorem tryOne_cursor_le (placed : List Proposal) (g : Nat → Proposal) :
    ∀ (fuel i : Nat), (tryOne placed g i fuel).2 ≤ i + fuel := by
  intro fuel
  induction fuel with
  | zero =>
    intro i
    simp [tryOne]
  | succ fuel ih =>
    intro i
    simp only [tryOne]
    split
    · omega
    · have := ih (i + 1)
      omega

/-- Each loop iteration accepts at most one shape. -/
theorem placeShapes_len_le (rb fl : Bool) (g : Nat → Proposal) :
    ∀ (n : Nat) (st : PlaceState),
      (placeShapes rb fl g n st).accepted.length ≤ st.accepted.length + n := by
  intro n
  induction n with
  | zero =>
    intro st
    simp [placeShapes]
  | succ n ih =>
    intro st
    rw [placeShapes]
    rcases htry : tryOne st.accepted g st.i 50 with ⟨o, i2⟩
    rcases o with _ | p
    · have h2 := ih ⟨st.accepted, st.ops, i2⟩
      dsimp only at h2 ⊢
      omega
    · have h2 := ih ⟨st.accepted ++ [p], st.ops ++ decorOps rb fl p, i2⟩
      dsimp only at h2 ⊢
      simp only [List.length_append, List.length_cons, List.length_nil] at h2
      omega

/-- The loop consumes at most `50` random records per shape. -/
theorem placeShapes_cursor_le (rb fl : Bool) (g : Nat → Proposal) :
    ∀ (n : Nat) (st : PlaceState),
      (placeShapes rb fl g n st).i ≤ st.i + n * 50 := by
  intro n
  induction n with
  | zero =>
    intro st
    simp [placeShapes]
  | succ n ih =>
    intro st
    rw [placeShapes]
    rcases htry : tryOne st.accepted g st.i 50 with ⟨o, i2⟩
    have hcur : i2 ≤ st.i + 50 := by
      have := tryOne_cursor_le st.accepted g 50 st.i
      rw [htry] at this
      exact this
    rcases o with _ | p
    · have h2 := ih ⟨st.accepted, st.ops, i2⟩
      dsimp only at h2 ⊢
      omega
    · have h2 := ih ⟨st.accepted ++ [p], st.ops ++ decorOps rb fl p, i2⟩
      dsimp only at h2 ⊢
      omega

/-- C7: the decoration pass of `compose_tag` attempts at most 80 shapes
(the accepted list grows by at most 80), retries each shape at most 50
times (at most `80 * 50` random draws are consumed in total), and budget
exhaustion merely skips a shape: every path is total and `compose_tag`
always returns a finished canvas of the requested dimensions. -/
theorem placement_budget (rb fl : Bool) (g : Nat → Proposal) (st : PlaceState) :
    (placeShapes rb fl g 80 st).accepted.length ≤ st.accepted.length + 80 ∧
    (placeShapes rb fl g 80 st).i ≤ st.i + 80 * 50 ∧
    ∀ (tt : String → Nat → Option Unit)
      (measure : PILFont → List Char → Nat × Nat)
      (name : List Char) (font_path : String) (W H : Nat)
      (font_size : Option Nat) (table_label : List Char),
      (compose_tag tt measure name font_path (W, H) font_size rb fl
        table_label g).width = W ∧
      (compose_tag tt measure name font_path (W, H) font_size rb fl
        table_label g).height = H :=
  ⟨placeShapes_len_le rb fl g 80 st, placeShapes_cursor_le rb fl g 80 st,
    fun _ _ _ _ _ _ _ _ => ⟨rfl, rfl⟩⟩

/-- The drawing operations emitted by the placement loop are exactly the
per-acceptance operations of the accepted proposals, in acceptance
order. -/
theorem placeShapes_ops_decor (rb fl : Bool) (g : Nat → Proposal) :
    ∀ (n : Nat) (st : PlaceState),
      st.ops = st.accepted.flatMap (decorOps rb fl) →
      (placeShapes rb fl g n st).ops =
        ((placeShapes rb fl g n st).accepted).flatMap (decorOps rb fl) := by
  intro n
  induction n with
  | zero =>
    intro st h
    simpa [placeShapes] using h
  | succ n ih =>
    intro st h
    rw [placeShapes]
    rcases htry : tryOne st.accepted g st.i 50 with ⟨o, i2⟩
    rcases o with _ | p
    · exact ih _ h
    · apply ih
      show st.ops ++ decorOps rb fl p = (st.accepted ++ [p]).flatMap (decorOps rb fl)
      rw [h, List.flatMap_append]
      simp

/-- C9: when both `random_bubbles` and `flowers` are true, the decoration
operations are exactly, for each accepted placement in order, the pastel
filled circle on the bounding box of the accepted centre and radius
followed by the motif stamp at that same centre — neither flag suppresses
the other. -/
theorem both_flags_draw_bubble_then_motif (g : Nat → Proposal) :
    (placeShapes true true g 80 ⟨[], [], 0⟩).ops =
      ((placeShapes true true g 80 ⟨[], [], 0⟩).accepted).flatMap
        (fun p => [DrawOp.ellipse ((p.cx : Int) - p.r) ((p.cy : Int) - p.r)
            ((p.cx : Int) + p.r) ((p.cy : Int) + p.r) p.colour,
          motifOp p]) := by
  have h := placeShapes_ops_decor true true g 80 ⟨[], [], 0⟩ (by simp)
  rw [h]
  have hdec : decorOps true true =
      fun p => [DrawOp.ellipse ((p.cx : Int) - p.r) ((p.cy : Int) - p.r)
          ((p.cx : Int) + p.r) ((p.cy : Int) + p.r) p.colour,
        motifOp p] := by
    funext p
    simp [decorOps]
  rw [hdec]

/-- Motif stamps are not text operations. -/
theorem textFontDefault_motifOp (p : Proposal) : textFontDefault (motifOp p) := by
  cases hm : p.motif <;> simp [motifOp, hm, textFontDefault]

/-- Per-acceptance decoration operations contain no text operation. -/
theorem textFontDefault_decorOps (rb fl : Bool) (p : Proposal) :
    ∀ op ∈ decorOps rb fl p, textFontDefault op := by
  intro op hop
  rcases List.mem_append.mp hop with hop | hop
  · split at hop
    · rw [List.mem_singleton] at hop
      rw [hop]
      trivial
    · exact absurd hop (List.not_mem_nil op)
  · split at hop
    · rw [List.mem_singleton] at hop
      rw [hop]
      exact textFontDefault_motifOp p
    · exact absurd hop (List.not_mem_nil op)

/-- The placement loop emits no text operation. -/
theorem placeShapes_ops_textFontDefault (rb fl : Bool) (g : Nat → Proposal) :
    ∀ (n : Nat) (st : PlaceState), (∀ op ∈ st.ops, textFontDefault op) →
      ∀ op ∈ (placeShapes rb fl g n st).ops, textFontDefault op := by
  intro n
  induction n with
  | zero =>
    intro st h
    simpa [placeShapes] using h
  | succ n ih =>
    intro st h
    rw [placeShapes]
    rcases htry : tryOne st.accepted g st.i 50 with ⟨o, i2⟩
    rcases o with _ | p
    · exact ih _ h
    · apply ih
      intro op hop
      rcases List.mem_append.mp hop with hop | hop
      · exact h op hop
      · exact textFontDefault_decorOps rb fl p op hop

/-- C8: if the requested font file cannot be loaded (the loader fails at
every size), `compose_tag` substitutes the built-in default font for both
the primary and the secondary label, no exception propagates (the model is
total), and the returned canvas still has exactly the requested pixel
dimensions. -/
theorem font_fallback (tt : String → Nat → Option Unit)
    (measure : PILFont → List Char → Nat × Nat) (name : List Char)
    (font_path : String) (W H : Nat) (font_size : Option Nat)
    (random_bubbles flowers : Bool) (table_label : List Char)
    (g : Nat → Proposal) (h : ∀ sz, tt font_path sz = none) :
    (compose_tag tt measure name font_path (W, H) font_size random_bubbles
      flowers table_label g).width = W ∧
    (compose_tag tt measure name font_path (W, H) font_size random_bubbles
      flowers table_label g).height = H ∧
    pickFonts tt font_path (resolveFontSize font_size H) =
      (PILFont.default, PILFont.default) ∧
    ∀ op ∈ (compose_tag tt measure name font_path (W, H) font_size
      random_bubbles flowers table_label g).ops, textFontDefault op := by
  have hpick : pickFonts tt font_path (resolveFontSize font_size H) =
      (PILFont.default, PILFont.default) := by
    unfold pickFonts
    rw [h]
  refine ⟨rfl, rfl, hpick, ?_⟩
  intro op hop
  simp only [compose_tag, hpick] at hop
  simp only [List.append_assoc, List.mem_append] at hop
  rcases hop with hop | hop | hop | hop | hop
  · simp only [washSlices, List.mem_cons, List.not_mem_nil, or_false] at hop
    rcases hop with hop | hop <;> rw [hop] <;> trivial
  · simp only [accentSlices, List.mem_cons, List.not_mem_nil, or_false] at hop
    rcases hop with hop | hop <;> rw [hop] <;> trivial
  · by_cases hdec : (random_bubbles || flowers) = true
    · rw [if_pos hdec] at hop
      exact placeShapes_ops_textFontDefault random_bubbles flowers g 80
        ⟨[], [], 0⟩ (by intro op2 hop2; exact absurd hop2 (List.not_mem_nil op2))
        op hop
    · rw [if_neg hdec] at hop
      exact absurd hop (List.not_mem_nil op)
  · simp only [List.mem_singleton] at hop
    rw [hop]
    trivial
  · simp only [textOps, List.mem_append, List.mem_singleton] at hop
    rcases hop with hop | hop
    · rw [hop]
      rfl
    · split at hop
      · exact absurd hop (List.not_mem_nil op)
      · simp only [List.mem_singleton] at hop
        rw [hop]
        rfl

/-- C8 witness: the fallback at a concrete always-failing loader. -/
theorem font_fallback_witness :
    (∀ sz, (fun (_ : String) (_ : Nat) => (none : Option Unit)) "missing.ttf" sz = none) ∧
    ((compose_tag (fun _ _ => none) (fun _ _ => (10, 10)) ("A".toList)
        "missing.ttf" (1000, 500) none false false ("T".toList)
        (fun _ => ⟨100, 100, 5, "#ffcdfe", Motif.heart⟩)).width = 1000 ∧
      (compose_tag (fun _ _ => none) (fun _ _ => (10, 10)) ("A".toList)
        "missing.ttf" (1000, 500) none false false ("T".toList)
        (fun _ => ⟨100, 100, 5, "#ffcdfe", Motif.heart⟩)).height = 500 ∧
      pickFonts (fun _ _ => none) "missing.ttf" (resolveFontSize none 500) =
        (PILFont.default, PILFont.default) ∧
      ∀ op ∈ (compose_tag (fun _ _ => none) (fun _ _ => (10, 10)) ("A".toList)
        "missing.ttf" (1000, 500) none false false ("T".toList)
        (fun _ => ⟨100, 100, 5, "#ffcdfe", Motif.heart⟩)).ops, textFontDefault op) :=
  ⟨fun _ => rfl,
    font_fallback (fun _ _ => none) (fun _ _ => (10, 10)) ("A".toList)
      "missing.ttf" 1000 500 none false false ("T".toList)
      (fun _ => ⟨100, 100, 5, "#ffcdfe", Motif.heart⟩) (fun _ => rfl)⟩

/-- C10: an explicit `font_size` of 0 behaves exactly like passing no
font size at all — Python's `font_size or int(H * 0.25)` takes the default
for every falsy value — so the two calls return identical canvases and the
primary size falls back to `int(0.25 * H) = H / 4` (the secondary is then
the same function of that fallback in both calls). -/
theorem font_size_zero_matches_none (tt : String → Nat → Option Unit)
    (measure : PILFont → List Char → Nat × Nat) (name : List Char)
    (font_path : String) (W H : Nat) (random_bubbles flowers : Bool)
    (table_label : List Char) (g : Nat → Proposal) :
    compose_tag tt measure name font_path (W, H) (some 0) random_bubbles
        flowers table_label g =
      compose_tag tt measure name font_path (W, H) none random_bubbles
        flowers table_label g ∧
    resolveFontSize (some 0) H = H / 4 ∧
    resolveFontSize none H = H / 4 := by
  have hr : resolveFontSize (some 0) H = resolveFontSize none H := by
    simp [resolveFontSize]
  exact ⟨by simp only [compose_tag, hr], by simp [resolveFontSize], rfl⟩

end Placemat
